import Mathlib

/-!
Verification of the pq-smart-wallet protocol pipeline.

This file shallowly embeds the TypeScript/Solidity core of the repository:
the hex codec (`pq-snap/src/crypto/index.ts`, `demo/wallet/src/lib/snap-signer.ts`),
the UserOperation codec and hash (`demo/wallet/src/lib/userop.ts`),
the bundler unpacking and submission (`demo/wallet/src/lib/bundler.ts`),
the two signer backends (`demo/wallet/src/lib/signer.ts`, `snap-signer.ts`),
the ML-DSA verification wrapper (`pq-snap/src/crypto/index.ts`),
the on-chain validator (`evm/src/PQValidatorModule.sol`), and the
transaction-approval lifecycle (`demo/wallet/src/App.tsx`).

Bytes are `Nat` values below 256 in `List Nat`; JavaScript strings are
`List Char`.  External capabilities (keccak256, the ML-DSA primitives, the
MetaMask snap transport, the bundler's JSON-RPC endpoint) are parameters of
the embedded functions, as they are opaque libraries from the repository's
point of view.
-/

/-- Numeric value of a hex digit character, 0 for a non-digit
(as used by the JS decoding loops). -/
def hexCharVal (c : Char) : Nat :=
  if '0' ≤ c ∧ c ≤ '9' then c.toNat - 48
  else if 'a' ≤ c ∧ c ≤ 'f' then c.toNat - 87
  else if 'A' ≤ c ∧ c ≤ 'F' then c.toNat - 55
  else 0

/-- The character class `[0-9a-fA-F]` of the validation regexes in
`snap-signer.ts` and `signer.ts`. -/
def isHexDigit (c : Char) : Bool :=
  (decide ('0' ≤ c) && decide (c ≤ '9')) ||
  (decide ('a' ≤ c) && decide (c ≤ 'f')) ||
  (decide ('A' ≤ c) && decide (c ≤ 'F'))

/-- Lowercase hex digit for a value below 16, as produced by JS
`Number.toString(16)`. -/
def hexDigitChar (n : Nat) : Char :=
  if n < 10 then Char.ofNat (48 + n) else Char.ofNat (87 + n)

/-- Strip an optional leading "0x", as in
`hex.startsWith('0x') ? hex.slice(2) : hex`. -/
def strip0x (s : List Char) : List Char :=
  if s.take 2 = ['0', 'x'] then s.drop 2 else s

/-- Value of `Number.parseInt(twoChars, 16)` as the decoding loops store it
into a `Uint8Array`: both digits valid gives the byte value; a valid first
digit followed by an invalid character gives the first digit's value
(`parseInt` stops at the first invalid character); an invalid first
character gives `NaN`, which the `Uint8Array` stores as 0.  (The further
`parseInt` corner cases — leading whitespace, signs, an embedded "0x" — do
not arise in two-character slices of the strings these codecs handle and
are not modelled.) -/
def parseHexPairJS (c₁ c₂ : Char) : Nat :=
  if isHexDigit c₁ then
    if isHexDigit c₂ then 16 * hexCharVal c₁ + hexCharVal c₂
    else hexCharVal c₁
  else 0

/-- The byte-building loop shared by `hexToBytes` (crypto/index.ts) and
`hexToBytesStrict` (snap-signer.ts): each consecutive pair of characters
becomes one byte.  It is only reached on even-length input. -/
def decodePairs : List Char → List Nat
  | c₁ :: c₂ :: rest => parseHexPairJS c₁ c₂ :: decodePairs rest
  | _ => []

/-- Hex digits of a byte list: each `Uint8Array` element rendered as
`b.toString(16).padStart(2, '0')`, concatenated (bytes are below 256). -/
def hexOfBytes : List Nat → List Char
  | [] => []
  | n :: rest => hexDigitChar (n / 16) :: hexDigitChar (n % 16) :: hexOfBytes rest

/-- Embeds `bytesToHex` of `pq-snap/src/crypto/index.ts` (and the identical
helpers in `snap-signer.ts` and `userop.ts`): a "0x"-prefixed lowercase
hex string. -/
def bytesToHex (b : List Nat) : List Char :=
  '0' :: 'x' :: hexOfBytes b

/-- Embeds `hexToBytes` of `pq-snap/src/crypto/index.ts`: strips an optional
"0x", rejects an odd digit count, then decodes pairwise.  There is no
character-class validation in the source. -/
def hexToBytes (hex : List Char) : Except String (List Nat) :=
  let cleanHex := strip0x hex
  if cleanHex.length % 2 ≠ 0 then .error "Invalid hex string length"
  else .ok (decodePairs cleanHex)

/-- Embeds `hexToBytesStrict` of `demo/wallet/src/lib/snap-signer.ts`
(the same code appears as `hexToBytesStrict` in `lib/signer.ts`): rejects an
odd digit count, then rejects any non-hex-digit character, then decodes. -/
def hexToBytesStrict (hex : List Char) : Except String (List Nat) :=
  let clean := strip0x hex
  if clean.length % 2 ≠ 0 then .error "Hex value must have an even length"
  else if clean.all isHexDigit then .ok (decodePairs clean)
  else .error "Hex value contains non-hex characters"

/-- Numeric value of a big-endian hex digit string (the value `BigInt`
assigns to the digits of a hex literal). -/
def hexDigitsVal (l : List Char) : Nat :=
  l.foldl (fun a c => 16 * a + hexCharVal c) 0

/-- Numeric value of a (possibly "0x"-prefixed) hex string. -/
def hexVal (s : List Char) : Nat :=
  hexDigitsVal (strip0x s)

/-- Minimal big-endian hex digits of a positive number, most significant
first, as produced by JS `BigInt.toString(16)`. -/
def hexDigitsOf (n : Nat) : List Char :=
  if _h : n < 16 then [hexDigitChar n]
  else hexDigitsOf (n / 16) ++ [hexDigitChar (n % 16)]
  termination_by n
  decreasing_by exact Nat.div_lt_self (by omega) (by omega)

/-- Digits of `n.toString(16)` including the zero case. -/
def natToHexDigits (n : Nat) : List Char :=
  if n = 0 then ['0'] else hexDigitsOf n

/-- Embeds viem's `numberToHex` as used in `userop.ts`: "0x" plus the minimal
hex digits ("0x0" for zero). -/
def numberToHex (n : Nat) : List Char :=
  '0' :: 'x' :: natToHexDigits n

-- Basic facts about hex digits, shared by several claims.

theorem hexCharVal_hexDigitChar : ∀ m, m < 16 → hexCharVal (hexDigitChar m) = m := by decide

theorem isHexDigit_hexDigitChar : ∀ m, m < 16 → isHexDigit (hexDigitChar m) = true := by decide

theorem hexDigitChar_ne_zeroChar : ∀ m, m < 16 → 0 < m → (hexDigitChar m == '0') = false := by
  decide

theorem strip0x_cons2 (l : List Char) : strip0x ('0' :: 'x' :: l) = l := by
  simp [strip0x]

theorem hexOfBytes_length (b : List Nat) : (hexOfBytes b).length = 2 * b.length := by
  induction b with
  | nil => simp [hexOfBytes]
  | cons n rest ih => simp [hexOfBytes, ih]; omega

theorem hexOfBytes_all_hex (b : List Nat) (hb : ∀ x ∈ b, x < 256) :
    (hexOfBytes b).all isHexDigit = true := by
  induction b with
  | nil => simp [hexOfBytes]
  | cons n rest ih =>
    have hn : n < 256 := hb n (by simp)
    have h₁ : n / 16 < 16 := by omega
    have h₂ : n % 16 < 16 := Nat.mod_lt _ (by omega)
    have hrest := ih (fun x hx => hb x (by simp [hx]))
    simp only [hexOfBytes, List.all_cons, Bool.and_eq_true]
    exact ⟨isHexDigit_hexDigitChar _ h₁, isHexDigit_hexDigitChar _ h₂, hrest⟩

theorem decodePairs_hexOfBytes (b : List Nat) (hb : ∀ x ∈ b, x < 256) :
    decodePairs (hexOfBytes b) = b := by
  induction b with
  | nil => simp [hexOfBytes, decodePairs]
  | cons n rest ih =>
    have hn : n < 256 := hb n (by simp)
    have h₁ : n / 16 < 16 := by omega
    have h₂ : n % 16 < 16 := Nat.mod_lt _ (by omega)
    simp only [hexOfBytes, decodePairs]
    rw [ih (fun x hx => hb x (by simp [hx]))]
    have e₁ := isHexDigit_hexDigitChar _ h₁
    have e₂ := isHexDigit_hexDigitChar _ h₂
    have v₁ := hexCharVal_hexDigitChar _ h₁
    have v₂ := hexCharVal_hexDigitChar _ h₂
    simp [parseHexPairJS, e₁, e₂, v₁, v₂]
    omega

theorem hexDigitsVal_append_digit (l : List Char) (c : Char) :
    hexDigitsVal (l ++ [c]) = 16 * hexDigitsVal l + hexCharVal c := by
  simp [hexDigitsVal, List.foldl_append]

theorem hexDigitsOf_props (n : Nat) : 0 < n →
    hexDigitsVal (hexDigitsOf n) = n ∧
    (∃ c t, hexDigitsOf n = c :: t ∧ (c == '0') = false) ∧
    ∀ k, n < 16 ^ k → (hexDigitsOf n).length ≤ k := by
  induction n using Nat.strong_induction_on with
  | _ n ih =>
    intro hn
    rw [hexDigitsOf]
    by_cases h : n < 16
    · simp only [h, dif_pos]
      refine ⟨by simp [hexDigitsVal, hexCharVal_hexDigitChar n h], ⟨_, _, rfl, hexDigitChar_ne_zeroChar n h hn⟩, ?_⟩
      intro k hk
      match k with
      | 0 => simp at hk; omega
      | k + 1 => simp
    · simp only [h, dif_neg, not_false_iff]
      have hdiv : n / 16 < n := Nat.div_lt_self (by omega) (by omega)
      have hpos : 0 < n / 16 := by omega
      obtain ⟨hval, ⟨c, t, hct, hc0⟩, hlen⟩ := ih (n / 16) hdiv hpos
      refine ⟨?_, ⟨c, t ++ [hexDigitChar (n % 16)], by rw [hct]; simp, hc0⟩, ?_⟩
      · rw [hexDigitsVal_append_digit, hval, hexCharVal_hexDigitChar _ (Nat.mod_lt _ (by omega))]
        omega
      · intro k hk
        match k with
        | 0 => simp at hk; omega
        | k + 1 =>
          have : n / 16 < 16 ^ k := by
            rw [Nat.div_lt_iff_lt_mul (show 0 < 16 by omega)]
            calc n < 16 ^ (k + 1) := hk
            _ = 16 ^ k * 16 := by ring
          have hl := hlen k this
          simp [List.length_append]
          omega

theorem hexDigitsVal_natToHexDigits (n : Nat) : hexDigitsVal (natToHexDigits n) = n := by
  by_cases h : n = 0
  · simp [natToHexDigits, h, hexDigitsVal, hexCharVal]
  · simp only [natToHexDigits, h, if_neg, not_false_iff]
    exact (hexDigitsOf_props n (by omega)).1

theorem natToHexDigits_length_le (n : Nat) (h : n < 16 ^ 32) :
    (natToHexDigits n).length ≤ 32 := by
  by_cases h0 : n = 0
  · simp [natToHexDigits, h0]
  · simp only [natToHexDigits, h0, if_neg, not_false_iff]
    exact (hexDigitsOf_props n (by omega)).2.2 32 h

theorem natToHexDigits_ne_nil (n : Nat) : natToHexDigits n ≠ [] := by
  by_cases h : n = 0
  · simp [natToHexDigits, h]
  · simp only [natToHexDigits, h, if_neg, not_false_iff]
    obtain ⟨c, t, hct, _⟩ := (hexDigitsOf_props n (by omega)).2.1
    simp [hct]

theorem dropWhile_zero_natToHexDigits (n : Nat) :
    (natToHexDigits n).dropWhile (fun c => c == '0') = if n = 0 then [] else natToHexDigits n := by
  by_cases h : n = 0
  · simp [natToHexDigits, h, List.dropWhile]
  · simp only [natToHexDigits, h, if_neg, not_false_iff]
    obtain ⟨c, t, hct, hc0⟩ := (hexDigitsOf_props n (by omega)).2.1
    rw [hct]
    simp [List.dropWhile, hc0]

theorem dropWhile_zero_replicate_append (k : Nat) (l : List Char) :
    (List.replicate k '0' ++ l).dropWhile (fun c => c == '0') =
      l.dropWhile (fun c => c == '0') := by
  induction k with
  | zero => simp
  | succ k ih => simp [List.replicate_succ, List.dropWhile, ih]

/-- Embeds viem `pad(hex, { size: 16 })` on a hex-digit string of at most 32
digits: left-pad with '0' to 32 digits (`padStart(32, '0')`). -/
def padLeft32 (l : List Char) : List Char :=
  List.replicate (32 - l.length) '0' ++ l

/-- The gas packing of `buildUserOp` (userop.ts): `concat([pad(numberToHex a,
16), pad(numberToHex b, 16)])`, a 32-byte (64-digit) "0x"-prefixed word. -/
def packPair (a b : Nat) : List Char :=
  '0' :: 'x' :: (padLeft32 (natToHexDigits a) ++ padLeft32 (natToHexDigits b))

/-- The canonical packed record built by `buildUserOp` (userop.ts), with all
fields in their on-the-wire hex-string form. -/
structure PackedUserOp where
  sender : List Char
  nonce : List Char
  initCode : List Char
  callData : List Char
  accountGasLimits : List Char
  preVerificationGas : List Char
  gasFees : List Char
  paymasterAndData : List Char
  signature : List Char
deriving DecidableEq, Repr

/-- The unpacked shape `unpackUserOp` (bundler.ts) hands to the bundler's
JSON-RPC; `none` stands for JSON `null`. -/
structure UnpackedUserOp where
  sender : List Char
  nonce : List Char
  factory : Option (List Char)
  factoryData : Option (List Char)
  callData : List Char
  callGasLimit : List Char
  verificationGasLimit : List Char
  preVerificationGas : List Char
  maxFeePerGas : List Char
  maxPriorityFeePerGas : List Char
  paymaster : Option (List Char)
  paymasterVerificationGasLimit : Option (List Char)
  paymasterPostOpGasLimit : Option (List Char)
  paymasterData : Option (List Char)
  signature : List Char
deriving DecidableEq, Repr

/-- The half-field re-encoding of `unpackUserOp`:
`half.replace(/^0+/, '') || '0'` — strip leading zero digits, an emptied
string becomes the single digit "0". -/
def stripZerosOr0 (l : List Char) : List Char :=
  let t := l.dropWhile (fun c => c == '0')
  if t.isEmpty then ['0'] else t

/-- Embeds `ensureHexPrefix` of bundler.ts. -/
def ensureHexPrefixed (val : List Char) : List Char :=
  if val = ['0', 'x'] then ['0', 'x', '0']
  else if val = ['0', 'x', '0'] then ['0', 'x', '0']
  else if val = [] then ['0', 'x', '0']
  else if val.take 2 = ['0', 'x'] then val
  else '0' :: 'x' :: val

/-- Embeds `unpackUserOp` of bundler.ts: converts the packed record to the
bundler's unpacked shape.  Each packed 32-byte field is split at digit index
32 (`slice(0, 32)` / `slice(32)`) after dropping the first two characters
(`slice(2)`); the halves are re-encoded via `stripZerosOr0`.  The source has
no width check and no error path: the function is total. -/
def unpackUserOp (packed : PackedUserOp) : UnpackedUserOp :=
  let agl := packed.accountGasLimits.drop 2
  let verificationGasLimit := '0' :: 'x' :: stripZerosOr0 (agl.take 32)
  let callGasLimit := '0' :: 'x' :: stripZerosOr0 (agl.drop 32)
  let gf := packed.gasFees.drop 2
  let maxPriorityFeePerGas := '0' :: 'x' :: stripZerosOr0 (gf.take 32)
  let maxFeePerGas := '0' :: 'x' :: stripZerosOr0 (gf.drop 32)
  { sender := packed.sender
    nonce := packed.nonce
    factory := none
    factoryData := none
    callData := packed.callData
    callGasLimit := ensureHexPrefixed callGasLimit
    verificationGasLimit := ensureHexPrefixed verificationGasLimit
    preVerificationGas := packed.preVerificationGas
    maxFeePerGas := ensureHexPrefixed maxFeePerGas
    maxPriorityFeePerGas := ensureHexPrefixed maxPriorityFeePerGas
    paymaster := none
    paymasterVerificationGasLimit := none
    paymasterPostOpGasLimit := none
    paymasterData := none
    signature := packed.signature }

/-- Modelled from the claim's words for comparison: stripping leading zero
BYTES (pairs of zero digits) from a hex-digit string, as opposed to the
source's stripping of leading zero digits. -/
def stripZeroBytePairs : List Char → List Char
  | '0' :: '0' :: rest => stripZeroBytePairs rest
  | l => l

-- Facts about the pack/unpack pipeline.

theorem padLeft32_length (l : List Char) (h : l.length ≤ 32) :
    (padLeft32 l).length = 32 := by
  simp [padLeft32]
  omega

theorem stripZerosOr0_padLeft32 (n : Nat) :
    stripZerosOr0 (padLeft32 (natToHexDigits n)) = natToHexDigits n := by
  unfold stripZerosOr0 padLeft32
  rw [dropWhile_zero_replicate_append, dropWhile_zero_natToHexDigits]
  by_cases h : n = 0
  · simp [h, natToHexDigits]
  · simp only [h, if_neg, not_false_iff]
    have := natToHexDigits_ne_nil n
    simp [List.isEmpty_iff, this]

theorem ensureHexPrefixed_hex (ds : List Char) (h : ds ≠ []) :
    ensureHexPrefixed ('0' :: 'x' :: ds) = '0' :: 'x' :: ds := by
  unfold ensureHexPrefixed
  by_cases h0 : ds = ['0']
  · simp [h0]
  · have h1 : ('0' :: 'x' :: ds) ≠ ['0', 'x'] := by simp [h]
    have h2 : ('0' :: 'x' :: ds) ≠ ['0', 'x', '0'] := by
      intro hc
      apply h0
      simpa using hc
    simp [h1, h2]

theorem stripZerosOr0_replicate (k : Nat) :
    stripZerosOr0 (List.replicate k '0') = ['0'] := by
  unfold stripZerosOr0
  have : (List.replicate k '0' ++ ([] : List Char)).dropWhile (fun c => c == '0') =
      ([] : List Char).dropWhile (fun c => c == '0') := dropWhile_zero_replicate_append k []
  simp only [List.append_nil] at this
  simp [this]

theorem hexDigitChar_lowercase : ∀ m, m < 16 →
    ((decide ('0' ≤ hexDigitChar m) && decide (hexDigitChar m ≤ '9')) ||
     (decide ('a' ≤ hexDigitChar m) && decide (hexDigitChar m ≤ 'f'))) = true := by
  decide

theorem hexOfBytes_lowercase (b : List Nat) (hb : ∀ x ∈ b, x < 256) :
    (hexOfBytes b).all
      (fun c => (decide ('0' ≤ c) && decide (c ≤ '9')) ||
                (decide ('a' ≤ c) && decide (c ≤ 'f'))) = true := by
  induction b with
  | nil => simp [hexOfBytes]
  | cons n rest ih =>
    have hn : n < 256 := hb n (by simp)
    have hrest := ih (fun x hx => hb x (by simp [hx]))
    simp only [hexOfBytes, List.all_cons, Bool.and_eq_true]
    exact ⟨hexDigitChar_lowercase _ (by omega),
      hexDigitChar_lowercase _ (Nat.mod_lt _ (by omega)), hrest⟩

/-- C7: for every byte sequence `b`, decoding the encoding of `b` returns `b`
again: `bytesToHex` emits a "0x"-prefixed string of lowercase hex digits and
both decoders (`hexToBytesStrict` of snap-signer.ts and `hexToBytes` of
crypto/index.ts) accept it and recover `b` exactly. -/
theorem C7_decode_encode_roundtrip (b : List Nat) (hb : ∀ x ∈ b, x < 256) :
    hexToBytesStrict (bytesToHex b) = Except.ok b ∧
    hexToBytes (bytesToHex b) = Except.ok b ∧
    (bytesToHex b).take 2 = ['0', 'x'] ∧
    ((bytesToHex b).drop 2).all
      (fun c => (decide ('0' ≤ c) && decide (c ≤ '9')) ||
                (decide ('a' ≤ c) && decide (c ≤ 'f'))) = true := by
  have hs : strip0x (bytesToHex b) = hexOfBytes b := strip0x_cons2 _
  have hlen : (hexOfBytes b).length % 2 = 0 := by rw [hexOfBytes_length]; omega
  have hall := hexOfBytes_all_hex b hb
  have hdec := decodePairs_hexOfBytes b hb
  refine ⟨?_, ?_, rfl, hexOfBytes_lowercase b hb⟩
  · simp only [hexToBytesStrict, hs, hlen, hall, hdec]
    simp
  · simp only [hexToBytes, hs, hlen, hdec]
    simp

/-- C7 witness: the round trip at the concrete byte sequence `[0, 171, 255]`. -/
theorem C7_roundtrip_witness :
    hexToBytesStrict (bytesToHex [0, 171, 255]) = Except.ok [0, 171, 255] ∧
    hexToBytes (bytesToHex [0, 171, 255]) = Except.ok [0, 171, 255] :=
  ⟨(C7_decode_encode_roundtrip [0, 171, 255] (by decide)).1,
   (C7_decode_encode_roundtrip [0, 171, 255] (by decide)).2.1⟩

/-- C6 counterexample: the claim says decoding fails whenever the input
contains a non-hex-digit character, but `hexToBytes` of
`pq-snap/src/crypto/index.ts` succeeds on "zz" (returning the byte 0,
`parseInt` NaN stored into the `Uint8Array`): only the odd-length check
exists there.  The strict decoder of snap-signer.ts does reject it. -/
theorem C6_counterexample :
    hexToBytes ['z', 'z'] = Except.ok [0] ∧ isHexDigit 'z' = false ∧
    hexToBytesStrict ['z', 'z'] =
      Except.error "Hex value contains non-hex characters" := by
  refine ⟨rfl, by decide, rfl⟩

/-- C6 (amended): `hexToBytesStrict` (snap-signer.ts) fails exactly when the
length after stripping an optional "0x" is odd or a character is not a hex
digit, while `hexToBytes` (crypto/index.ts) checks only the length parity;
both decode "" and "0x" to the empty byte sequence. -/
theorem C6_decode_error_conditions (s : List Char) :
    ((∃ bs, hexToBytesStrict s = Except.ok bs) ↔
      (strip0x s).length % 2 = 0 ∧ (strip0x s).all isHexDigit = true) ∧
    ((∃ bs, hexToBytes s = Except.ok bs) ↔ (strip0x s).length % 2 = 0) ∧
    hexToBytesStrict [] = Except.ok [] ∧
    hexToBytesStrict ['0', 'x'] = Except.ok [] ∧
    hexToBytes [] = Except.ok [] ∧
    hexToBytes ['0', 'x'] = Except.ok [] := by
  refine ⟨?_, ?_, rfl, rfl, rfl, rfl⟩
  · unfold hexToBytesStrict
    by_cases h₁ : (strip0x s).length % 2 = 0
    · by_cases h₂ : (strip0x s).all isHexDigit
      · simp [h₁, h₂]
      · simp [h₁, h₂]
    · simp [h₁]
  · unfold hexToBytes
    by_cases h₁ : (strip0x s).length % 2 = 0
    · simp [h₁]
    · simp [h₁]

theorem hexVal_numberToHex (n : Nat) : hexVal (numberToHex n) = n := by
  unfold hexVal numberToHex
  rw [strip0x_cons2, hexDigitsVal_natToHexDigits]

theorem packPair_drop2 (a b : Nat) :
    (packPair a b).drop 2 = padLeft32 (natToHexDigits a) ++ padLeft32 (natToHexDigits b) := rfl

theorem packPair_halves (a b : Nat) (ha : a < 2 ^ 128) (_hb : b < 2 ^ 128) :
    ((packPair a b).drop 2).take 32 = padLeft32 (natToHexDigits a) ∧
    ((packPair a b).drop 2).drop 32 = padLeft32 (natToHexDigits b) := by
  have h16 : (16 : Nat) ^ 32 = 2 ^ 128 := by norm_num
  have la : (padLeft32 (natToHexDigits a)).length = 32 :=
    padLeft32_length _ (natToHexDigits_length_le a (by omega))
  rw [packPair_drop2]
  exact ⟨List.take_left' la, List.drop_left' la⟩

theorem unpack_agl_packPair (p : PackedUserOp) (a b : Nat)
    (ha : a < 2 ^ 128) (hb : b < 2 ^ 128) (hagl : p.accountGasLimits = packPair a b) :
    (unpackUserOp p).verificationGasLimit = numberToHex a ∧
    (unpackUserOp p).callGasLimit = numberToHex b := by
  obtain ⟨ht, hd⟩ := packPair_halves a b ha hb
  constructor
  · show ensureHexPrefixed
      ('0' :: 'x' :: stripZerosOr0 ((p.accountGasLimits.drop 2).take 32)) = numberToHex a
    rw [hagl, ht, stripZerosOr0_padLeft32, ensureHexPrefixed_hex _ (natToHexDigits_ne_nil a)]
    rfl
  · show ensureHexPrefixed
      ('0' :: 'x' :: stripZerosOr0 ((p.accountGasLimits.drop 2).drop 32)) = numberToHex b
    rw [hagl, hd, stripZerosOr0_padLeft32, ensureHexPrefixed_hex _ (natToHexDigits_ne_nil b)]
    rfl

theorem unpack_fees_packPair (p : PackedUserOp) (a b : Nat)
    (ha : a < 2 ^ 128) (hb : b < 2 ^ 128) (hgf : p.gasFees = packPair a b) :
    (unpackUserOp p).maxPriorityFeePerGas = numberToHex a ∧
    (unpackUserOp p).maxFeePerGas = numberToHex b := by
  obtain ⟨ht, hd⟩ := packPair_halves a b ha hb
  constructor
  · show ensureHexPrefixed
      ('0' :: 'x' :: stripZerosOr0 ((p.gasFees.drop 2).take 32)) = numberToHex a
    rw [hgf, ht, stripZerosOr0_padLeft32, ensureHexPrefixed_hex _ (natToHexDigits_ne_nil a)]
    rfl
  · show ensureHexPrefixed
      ('0' :: 'x' :: stripZerosOr0 ((p.gasFees.drop 2).drop 32)) = numberToHex b
    rw [hgf, hd, stripZerosOr0_padLeft32, ensureHexPrefixed_hex _ (natToHexDigits_ne_nil b)]
    rfl

/-- C2 (amended): packing two 128-bit values into one 32-byte field and
unpacking via `unpackUserOp` recovers both values exactly; the re-encoding
strips leading zero hex DIGITS (not bytes) from each 16-byte half, i.e. each
output is the minimal hex-quantity encoding `numberToHex`, and a fully-zero
half serializes as "0x0" (`numberToHex 0`), never as "0x" or "". -/
theorem C2_gas_pack_unpack (p : PackedUserOp) (vg cg mp mf : Nat)
    (h₁ : vg < 2 ^ 128) (h₂ : cg < 2 ^ 128) (h₃ : mp < 2 ^ 128) (h₄ : mf < 2 ^ 128)
    (hagl : p.accountGasLimits = packPair vg cg) (hgf : p.gasFees = packPair mp mf) :
    (unpackUserOp p).verificationGasLimit = numberToHex vg ∧
    (unpackUserOp p).callGasLimit = numberToHex cg ∧
    (unpackUserOp p).maxPriorityFeePerGas = numberToHex mp ∧
    (unpackUserOp p).maxFeePerGas = numberToHex mf ∧
    hexVal (unpackUserOp p).verificationGasLimit = vg ∧
    hexVal (unpackUserOp p).callGasLimit = cg ∧
    hexVal (unpackUserOp p).maxPriorityFeePerGas = mp ∧
    hexVal (unpackUserOp p).maxFeePerGas = mf ∧
    numberToHex 0 = ['0', 'x', '0'] := by
  obtain ⟨ha₁, ha₂⟩ := unpack_agl_packPair p vg cg h₁ h₂ hagl
  obtain ⟨hf₁, hf₂⟩ := unpack_fees_packPair p mp mf h₃ h₄ hgf
  refine ⟨ha₁, ha₂, hf₁, hf₂, ?_, ?_, ?_, ?_, rfl⟩
  · rw [ha₁, hexVal_numberToHex]
  · rw [ha₂, hexVal_numberToHex]
  · rw [hf₁, hexVal_numberToHex]
  · rw [hf₂, hexVal_numberToHex]

/-- Concrete packed operation for the C2 witness: zero and non-zero halves. -/
def gasOpExample : PackedUserOp where
  sender := ['a']
  nonce := ['0', 'x', '0']
  initCode := ['0', 'x']
  callData := ['0', 'x']
  accountGasLimits := packPair 0 256
  preVerificationGas := ['0', 'x', '0']
  gasFees := packPair 1 255
  paymasterAndData := ['0', 'x']
  signature := ['0', 'x']

/-- C2 witness: the pack/unpack inverse at `(0, 256)` and `(1, 255)`. -/
theorem C2_gas_pack_unpack_witness :
    (unpackUserOp gasOpExample).verificationGasLimit = numberToHex 0 ∧
    (unpackUserOp gasOpExample).callGasLimit = numberToHex 256 ∧
    (unpackUserOp gasOpExample).maxPriorityFeePerGas = numberToHex 1 ∧
    (unpackUserOp gasOpExample).maxFeePerGas = numberToHex 255 ∧
    hexVal (unpackUserOp gasOpExample).verificationGasLimit = 0 ∧
    hexVal (unpackUserOp gasOpExample).callGasLimit = 256 ∧
    hexVal (unpackUserOp gasOpExample).maxPriorityFeePerGas = 1 ∧
    hexVal (unpackUserOp gasOpExample).maxFeePerGas = 255 ∧
    numberToHex 0 = ['0', 'x', '0'] :=
  C2_gas_pack_unpack gasOpExample 0 256 1 255 (by norm_num) (by norm_num)
    (by norm_num) (by norm_num) rfl rfl

theorem natToHexDigits_256 : natToHexDigits 256 = ['1', '0', '0'] := by
  rw [natToHexDigits]
  norm_num
  rw [hexDigitsOf, hexDigitsOf, hexDigitsOf]
  norm_num
  decide

/-- Concrete packed operation for the C2 counterexample. -/
def cexGasOp : PackedUserOp where
  sender := ['a']
  nonce := ['0', 'x', '0']
  initCode := ['0', 'x']
  callData := ['0', 'x']
  accountGasLimits := packPair 256 1
  preVerificationGas := ['0', 'x', '0']
  gasFees := packPair 0 0
  paymasterAndData := ['0', 'x']
  signature := ['0', 'x']

/-- C2 counterexample: at `verificationGasLimit = 256` the code re-encodes the
16-byte half `0x...0100` as "0x100" (leading zero DIGITS stripped), while the
claim's "strips leading zero bytes" would give "0x0100"; the two differ. -/
theorem C2_counterexample :
    (unpackUserOp cexGasOp).verificationGasLimit = ['0', 'x', '1', '0', '0'] ∧
    '0' :: 'x' :: stripZeroBytePairs (padLeft32 (natToHexDigits 256)) =
      ['0', 'x', '0', '1', '0', '0'] ∧
    (['0', 'x', '1', '0', '0'] : List Char) ≠ ['0', 'x', '0', '1', '0', '0'] := by
  have h := (unpack_agl_packPair cexGasOp 256 1 (by norm_num) (by norm_num) rfl).1
  refine ⟨?_, ?_, by decide⟩
  · rw [h, numberToHex, natToHexDigits_256]
  · rw [natToHexDigits_256]
    decide

/-- Concrete packed operation with a 2-byte (4-digit) `accountGasLimits`
for the C5 counterexample. -/
def shortAglOp : PackedUserOp where
  sender := ['a']
  nonce := ['b']
  initCode := []
  callData := ['c']
  accountGasLimits := ['0', 'x', '1', '2', '3', '4']
  preVerificationGas := ['d']
  gasFees := ['0', 'x']
  paymasterAndData := []
  signature := ['e']

/-- C5 counterexample: `unpackUserOp` does not reject a packed field whose
width is not 32 bytes — on a 2-byte `accountGasLimits` ("0x1234") it
succeeds, returning the whole remainder as `verificationGasLimit` and "0x0"
as `callGasLimit` (and likewise for an empty `gasFees`). -/
theorem C5_counterexample :
    (shortAglOp.accountGasLimits.drop 2).length = 4 ∧
    unpackUserOp shortAglOp =
      { sender := ['a']
        nonce := ['b']
        factory := none
        factoryData := none
        callData := ['c']
        callGasLimit := ['0', 'x', '0']
        verificationGasLimit := ['0', 'x', '1', '2', '3', '4']
        preVerificationGas := ['d']
        maxFeePerGas := ['0', 'x', '0']
        maxPriorityFeePerGas := ['0', 'x', '0']
        paymaster := none
        paymasterVerificationGasLimit := none
        paymasterPostOpGasLimit := none
        paymasterData := none
        signature := ['e'] } :=
  ⟨rfl, rfl⟩

/-- C5 (amended): `unpackUserOp` performs no width validation at all: for a
packed `accountGasLimits` of ANY digit count (any byte width, 32 bytes or
not) it succeeds, splitting the digits present at index 32; an all-zero or
missing half re-encodes as "0x0". -/
theorem C5_unpack_any_width (p : PackedUserOp) (n : Nat)
    (h : p.accountGasLimits = '0' :: 'x' :: List.replicate n '0') :
    (unpackUserOp p).verificationGasLimit = ['0', 'x', '0'] ∧
    (unpackUserOp p).callGasLimit = ['0', 'x', '0'] := by
  constructor
  · show ensureHexPrefixed
      ('0' :: 'x' :: stripZerosOr0 ((p.accountGasLimits.drop 2).take 32)) = ['0', 'x', '0']
    rw [h]
    show ensureHexPrefixed
      ('0' :: 'x' :: stripZerosOr0 ((List.replicate n '0').take 32)) = ['0', 'x', '0']
    rw [List.take_replicate, stripZerosOr0_replicate]
    rfl
  · show ensureHexPrefixed
      ('0' :: 'x' :: stripZerosOr0 ((p.accountGasLimits.drop 2).drop 32)) = ['0', 'x', '0']
    rw [h]
    show ensureHexPrefixed
      ('0' :: 'x' :: stripZerosOr0 ((List.replicate n '0').drop 32)) = ['0', 'x', '0']
    rw [List.drop_replicate, stripZerosOr0_replicate]
    rfl

/-- Concrete packed operation with a 2-byte all-zero `accountGasLimits`. -/
def zeroAglOp : PackedUserOp where
  sender := ['a']
  nonce := ['b']
  initCode := []
  callData := ['c']
  accountGasLimits := '0' :: 'x' :: List.replicate 4 '0'
  preVerificationGas := ['d']
  gasFees := ['0', 'x']
  paymasterAndData := []
  signature := ['e']

/-- C5 witness: unpacking succeeds on a 2-byte-wide packed field. -/
theorem C5_unpack_any_width_witness :
    (unpackUserOp zeroAglOp).verificationGasLimit = ['0', 'x', '0'] ∧
    (unpackUserOp zeroAglOp).callGasLimit = ['0', 'x', '0'] :=
  C5_unpack_any_width zeroAglOp 4 rfl

/-- C10: converting a packed operation to the relay's unpacked shape changes
only the gas-field representation — `sender`, `nonce`, `callData`,
`preVerificationGas` and `signature` are passed through byte-for-byte, and
the factory/paymaster fields of the output are `null`. -/
theorem C10_unpack_preserves_frame (p : PackedUserOp) :
    (unpackUserOp p).sender = p.sender ∧
    (unpackUserOp p).nonce = p.nonce ∧
    (unpackUserOp p).callData = p.callData ∧
    (unpackUserOp p).preVerificationGas = p.preVerificationGas ∧
    (unpackUserOp p).signature = p.signature ∧
    (unpackUserOp p).factory = none ∧
    (unpackUserOp p).factoryData = none ∧
    (unpackUserOp p).paymaster = none ∧
    (unpackUserOp p).paymasterVerificationGasLimit = none ∧
    (unpackUserOp p).paymasterPostOpGasLimit = none ∧
    (unpackUserOp p).paymasterData = none :=
  ⟨rfl, rfl, rfl, rfl, rfl, rfl, rfl, rfl, rfl, rfl, rfl⟩

/-- Big-endian byte encoding of a number in `k` bytes (an ABI static word for
`k = 32`), most significant byte first. -/
def beBytes : Nat → Nat → List Nat
  | 0, _ => []
  | k + 1, n => beBytes k (n / 256) ++ [n % 256]

/-- The fields of a `PackedUserOp` that enter the hash (everything but the
signature), at byte/numeric level: `sender` is the 20-byte account address,
`nonce` and `preVerificationGas` are the numeric values `BigInt` reads off
the hex strings, the three variable-length fields are byte lists and the two
packed gas words are 32-byte lists. -/
structure UserOpFields where
  sender : List Nat
  nonce : Nat
  initCode : List Nat
  callData : List Nat
  accountGasLimits : List Nat
  preVerificationGas : Nat
  gasFees : List Nat
  paymasterAndData : List Nat

/-- Embeds `computeUserOpHash` of userop.ts, parameterized over the opaque
keccak256 capability (viem's `keccak256`).  Stage 1: ABI-encode the tuple
`(address, uint256, bytes32, bytes32, bytes32, uint256, bytes32, bytes32)` —
all static 32-byte words, the three variable-length fields entering as their
keccak hashes — and hash it.  Stage 2: ABI-encode `(bytes32, address,
uint256)` of that hash, the EntryPoint address and the chain id, and hash
the result.  The embedding is a pure function: determinism of the source
("same digest on every call") is purity of this definition. -/
def computeUserOpHash (keccak : List Nat → List Nat) (op : UserOpFields)
    (entryPoint : List Nat) (chainId : Nat) : List Nat :=
  let packed :=
    (List.replicate 12 0 ++ op.sender) ++ beBytes 32 op.nonce ++
    keccak op.initCode ++ keccak op.callData ++ op.accountGasLimits ++
    beBytes 32 op.preVerificationGas ++ op.gasFees ++ keccak op.paymasterAndData
  let packedHash := keccak packed
  keccak (packedHash ++ (List.replicate 12 0 ++ entryPoint) ++ beBytes 32 chainId)

/-- Modelled from the spec: an address occupies one ABI word, left-padded
with 12 zero bytes. -/
def abiAddressWord (addr : List Nat) : List Nat :=
  List.replicate 12 0 ++ addr

/-- Modelled from the spec: a uint256 occupies one big-endian ABI word. -/
def abiUintWord (n : Nat) : List Nat :=
  beBytes 32 n

/-- Modelled from the spec's two-stage description, stage (a): keccak-hash
each variable-length field independently, concatenate with the fixed-width
fields into one ABI-style tuple, and hash that tuple. -/
def specStage1 (keccak : List Nat → List Nat) (op : UserOpFields) : List Nat :=
  keccak (List.flatten
    [abiAddressWord op.sender, abiUintWord op.nonce, keccak op.initCode,
     keccak op.callData, op.accountGasLimits, abiUintWord op.preVerificationGas,
     op.gasFees, keccak op.paymasterAndData])

/-- Modelled from the spec's two-stage description, stage (b): ABI-encode the
intermediate hash with the validating-authority address and the chain id and
hash the result. -/
def specUserOpHash (keccak : List Nat → List Nat) (op : UserOpFields)
    (validatorAddress : List Nat) (chainId : Nat) : List Nat :=
  keccak (List.flatten
    [specStage1 keccak op, abiAddressWord validatorAddress, abiUintWord chainId])

/-- C1: `computeUserOpHash` is a pure function of the operation fields, the
EntryPoint address and the chain id (determinism is purity of the embedding),
it follows the spec's two-stage algorithm exactly, and whenever the keccak
capability returns 32-byte digests its result is a 32-byte digest. -/
theorem C1_userop_hash_two_stage (keccak : List Nat → List Nat) (op : UserOpFields)
    (entryPoint : List Nat) (chainId : Nat)
    (hk : ∀ bs, (keccak bs).length = 32) :
    computeUserOpHash keccak op entryPoint chainId =
      specUserOpHash keccak op entryPoint chainId ∧
    (computeUserOpHash keccak op entryPoint chainId).length = 32 := by
  constructor
  · unfold computeUserOpHash specUserOpHash specStage1 abiAddressWord abiUintWord
    simp [List.flatten, List.append_assoc]
  · unfold computeUserOpHash
    exact hk _

/-- Concrete user operation fields for the C1 witness. -/
def opFieldsExample : UserOpFields where
  sender := List.replicate 20 17
  nonce := 1
  initCode := []
  callData := [222, 173, 190, 239]
  accountGasLimits := List.replicate 32 0
  preVerificationGas := 100000
  gasFees := List.replicate 32 0
  paymasterAndData := []

/-- C1 witness: the two-stage equality and digest length at a concrete
operation under a concrete 32-byte-digest capability. -/
theorem C1_userop_hash_two_stage_witness :
    computeUserOpHash (fun _ => List.replicate 32 7) opFieldsExample
        (List.replicate 20 9) 412346 =
      specUserOpHash (fun _ => List.replicate 32 7) opFieldsExample
        (List.replicate 20 9) 412346 ∧
    (computeUserOpHash (fun _ => List.replicate 32 7) opFieldsExample
        (List.replicate 20 9) 412346).length = 32 :=
  C1_userop_hash_two_stage (fun _ => List.replicate 32 7) opFieldsExample
    (List.replicate 20 9) 412346 (fun _ => by simp)

/-- The ERC-1271 success selector `0x1626ba7e` of PQValidatorModule.sol. -/
def ERC1271_VALID : List Nat := [22, 38, 186, 126]

/-- The ERC-1271 failure selector `0xffffffff` of PQValidatorModule.sol. -/
def ERC1271_INVALID : List Nat := [255, 255, 255, 255]

/-- On-chain context of a PQValidatorModule call: the module's own address
(`address(this)`), the chain id (`block.chainid`) and the stored public-key
mapping (`publicKeys`, the empty list standing for an unset slot). -/
structure ValidatorState where
  thisAddr : List Nat
  chainId : Nat
  publicKeys : List Nat → List Nat

/-- Embeds `isInitialized` of PQValidatorModule.sol:
`publicKeys[smartAccount].length > 0`. -/
def isInitialized (st : ValidatorState) (smartAccount : List Nat) : Bool :=
  decide (0 < (st.publicKeys smartAccount).length)

/-- The `abi.encodePacked(address(this), block.chainid, msg.sender, sender,
hash)` preimage of PQValidatorModule.sol line 67: 20-byte module address,
32-byte big-endian chain id, 20-byte account (the caller that installed the
key), 20-byte sender parameter, 32-byte hash, tightly concatenated. -/
def senderBoundPreimage (st : ValidatorState) (account sender hash : List Nat) :
    List Nat :=
  st.thisAddr ++ beBytes 32 st.chainId ++ account ++ sender ++ hash

/-- Embeds `isValidSignatureWithSender` of PQValidatorModule.sol,
parameterized over the opaque keccak256 and the Stylus verifier capability
`verifier.verify(publicKey, hash, signature)`.  `account` is `msg.sender`
(the smart account calling the module). -/
def isValidSignatureWithSender (keccak : List Nat → List Nat)
    (vrf : List Nat → List Nat → List Nat → Bool) (st : ValidatorState)
    (account sender hash signature : List Nat) : List Nat :=
  if ¬ isInitialized st account then ERC1271_INVALID
  else
    let mlDSAPubKey := st.publicKeys account
    let senderBoundHash := keccak (senderBoundPreimage st account sender hash)
    if vrf mlDSAPubKey senderBoundHash signature then ERC1271_VALID
    else ERC1271_INVALID

/-- Modelled from the spec: the sender-bound re-hash of
`{validatorContractAddress, chainId, accountAddress, callerAddress,
originalHash}`, in that order, packed and keccak-hashed. -/
def specSenderBoundHash (keccak : List Nat → List Nat) (st : ValidatorState)
    (accountAddress callerAddress originalHash : List Nat) : List Nat :=
  keccak (List.flatten
    [st.thisAddr, beBytes 32 st.chainId, accountAddress, callerAddress, originalHash])

/-- C3: when a key is installed, `isValidSignatureWithSender` verifies the
signature not against the original hash but against the re-derived hash
`keccak256(packed(validatorContractAddress, chainId, accountAddress,
senderAddress, originalHash))`, with exactly those fields in that order. -/
theorem C3_sender_bound_verification (keccak : List Nat → List Nat)
    (vrf : List Nat → List Nat → List Nat → Bool) (st : ValidatorState)
    (account sender hash signature : List Nat)
    (hinit : isInitialized st account = true) :
    isValidSignatureWithSender keccak vrf st account sender hash signature =
      (if vrf (st.publicKeys account)
            (specSenderBoundHash keccak st account sender hash) signature
       then ERC1271_VALID else ERC1271_INVALID) ∧
    specSenderBoundHash keccak st account sender hash =
      keccak (st.thisAddr ++ beBytes 32 st.chainId ++ account ++ sender ++ hash) := by
  constructor
  · unfold isValidSignatureWithSender specSenderBoundHash senderBoundPreimage
    simp [hinit, List.flatten, List.append_assoc]
  · unfold specSenderBoundHash
    simp [List.flatten, List.append_assoc]

/-- Concrete validator state for the C3 witness: one installed key. -/
def valStateExample : ValidatorState where
  thisAddr := List.replicate 20 3
  chainId := 412346
  publicKeys := fun account => if account = List.replicate 20 5 then [1, 2] else []

/-- C3 witness: the sender-bound verification shape at a concrete state,
with a capability accepting everything. -/
theorem C3_sender_bound_verification_witness :
    isValidSignatureWithSender (fun _ => List.replicate 32 7)
        (fun _ _ _ => true) valStateExample (List.replicate 20 5)
        (List.replicate 20 6) (List.replicate 32 8) [9] =
      (if (fun (_ _ _ : List Nat) => true) (valStateExample.publicKeys (List.replicate 20 5))
            (specSenderBoundHash (fun _ => List.replicate 32 7) valStateExample
              (List.replicate 20 5) (List.replicate 20 6) (List.replicate 32 8)) [9]
       then ERC1271_VALID else ERC1271_INVALID) ∧
    specSenderBoundHash (fun _ => List.replicate 32 7) valStateExample
        (List.replicate 20 5) (List.replicate 20 6) (List.replicate 32 8) =
      (fun _ => List.replicate 32 7)
        (valStateExample.thisAddr ++ beBytes 32 valStateExample.chainId ++
          List.replicate 20 5 ++ List.replicate 20 6 ++ List.replicate 32 8) :=
  C3_sender_bound_verification (fun _ => List.replicate 32 7) (fun _ _ _ => true)
    valStateExample (List.replicate 20 5) (List.replicate 20 6)
    (List.replicate 32 8) [9] (by simp [isInitialized, valStateExample])

/-- An ML-DSA keypair as cached by `lib/signer.ts`. -/
structure MLDSAKeypair where
  publicKey : List Nat
  secretKey : List Nat

/-- Embeds `signUserOpHash` of the seed-backed signer (`lib/signer.ts`),
parameterized over the opaque `ml_dsa65.sign(msg, secretKey)` capability and
the module-level `cachedKeypair` (`none` when no seed was loaded).
`getKeypair` throws when unconfigured; there is NO validation of the hash
length in the source. -/
def signUserOpHash (mlSign : List Nat → List Nat → List Nat)
    (cachedKeypair : Option MLDSAKeypair) (hash : List Nat) :
    Except String (List Nat) :=
  match cachedKeypair with
  | none => .error "Signer not initialized. Load a 32-byte ML-DSA seed first."
  | some kp => .ok (mlSign hash kp.secretKey)

/-- The remote part of `signViaSnap` (snap-signer.ts) after the length guard:
invoke the snap with the hex-encoded hash (the chain id rides along in the
request params), reject a falsy (empty) signature string, then decode it
strictly.  The remote capability stands for `invokeSnap('pq_signUserOp', _)`
and its `.error` for any transport or snap-side rejection. -/
def snapForward (remote : List Char → Except String (List Char))
    (hash : List Nat) : Except String (List Nat) :=
  match remote (bytesToHex hash) with
  | .error e => .error e
  | .ok sigHex =>
    if sigHex.isEmpty then .error "Snap returned an invalid signature"
    else hexToBytesStrict sigHex

/-- Embeds `signViaSnap` of snap-signer.ts: the 32-byte hash guard runs
before anything is sent to the snap. -/
def signViaSnap (remote : List Char → Except String (List Char))
    (hash : List Nat) : Except String (List Nat) :=
  if hash.length ≠ 32 then
    .error ("Expected 32-byte UserOp hash, got " ++ toString hash.length)
  else snapForward remote hash

/-- C4 counterexample: the seed-backed signer signs a 31-byte hash without
raising any invalid-hash-length error — `signUserOpHash` (lib/signer.ts) has
no length check, so the claim fails for the in-memory-seed variant. -/
theorem C4_counterexample :
    signUserOpHash (fun h _ => h) (some ⟨[1], [2]⟩) (List.replicate 31 0) =
      Except.ok (List.replicate 31 0) ∧
    (List.replicate 31 0).length ≠ 32 :=
  ⟨rfl, by simp⟩

/-- C4 (amended): the remote-plugin signer (`signViaSnap`) fails fast with
the invalid-hash-length error on every non-32-byte hash, before the remote
capability is consulted, and never raises it on a 32-byte hash; the
seed-backed signer (`signUserOpHash`) performs no hash-length check at all —
with a configured keypair it signs a hash of any length, and unconfigured it
fails with the not-initialized error. -/
theorem C4_sign_hash_length_guard (remote : List Char → Except String (List Char))
    (mlSign : List Nat → List Nat → List Nat) (kp : MLDSAKeypair) (hash : List Nat) :
    (hash.length ≠ 32 →
      signViaSnap remote hash =
        Except.error ("Expected 32-byte UserOp hash, got " ++ toString hash.length)) ∧
    (hash.length = 32 → signViaSnap remote hash = snapForward remote hash) ∧
    signUserOpHash mlSign (some kp) hash = Except.ok (mlSign hash kp.secretKey) ∧
    signUserOpHash mlSign none hash =
      Except.error "Signer not initialized. Load a 32-byte ML-DSA seed first." := by
  refine ⟨?_, ?_, rfl, rfl⟩
  · intro h
    simp [signViaSnap, h]
  · intro h
    simp [signViaSnap, h]

/-- C4 witness: the guard at a concrete 31-byte hash and a concrete 32-byte
hash, with a stub snap capability. -/
theorem C4_sign_hash_length_guard_witness :
    signViaSnap (fun _ => Except.ok ['a', 'b']) (List.replicate 31 0) =
      Except.error
        ("Expected 32-byte UserOp hash, got " ++ toString (List.replicate 31 0).length) ∧
    signViaSnap (fun _ => Except.ok ['a', 'b']) (List.replicate 32 0) =
      snapForward (fun _ => Except.ok ['a', 'b']) (List.replicate 32 0) ∧
    signUserOpHash (fun h _ => h) (some ⟨[1], [2]⟩) (List.replicate 31 0) =
      Except.ok ((fun (h _ : List Nat) => h) (List.replicate 31 0) [2]) :=
  ⟨(C4_sign_hash_length_guard (fun _ => Except.ok ['a', 'b']) (fun h _ => h)
      ⟨[1], [2]⟩ (List.replicate 31 0)).1 (by simp),
   (C4_sign_hash_length_guard (fun _ => Except.ok ['a', 'b']) (fun h _ => h)
      ⟨[1], [2]⟩ (List.replicate 32 0)).2.1 (by simp),
   (C4_sign_hash_length_guard (fun _ => Except.ok ['a', 'b']) (fun h _ => h)
      ⟨[1], [2]⟩ (List.replicate 31 0)).2.2.1⟩

/-- ML-DSA security levels of `pq-snap/src/types.ts`. -/
inductive SecurityLevel
  | ml_dsa44
  | ml_dsa65
  | ml_dsa87
deriving DecidableEq, Repr

/-- Key and signature sizes per security level. -/
structure AlgoSizes where
  publicKey : Nat
  secretKey : Nat
  signature : Nat
deriving DecidableEq, Repr

/-- Embeds `KEY_SIZES` of `pq-snap/src/crypto/index.ts`. -/
def KEY_SIZES : SecurityLevel → AlgoSizes
  | .ml_dsa44 => ⟨1312, 2560, 2420⟩
  | .ml_dsa65 => ⟨1952, 4032, 3309⟩
  | .ml_dsa87 => ⟨2592, 4896, 4627⟩

/-- Embeds `verify` of `pq-snap/src/crypto/index.ts`, parameterized over the
opaque `algo.verify(signature, message, publicKey)` capability, whose
`.error` outcome stands for a thrown exception.  The source validates the
public-key and signature sizes, then wraps the capability call in
`try/catch`, turning any exception into `false`. -/
def verify (algoVerify : List Nat → List Nat → List Nat → Except String Bool)
    (publicKey message sg : List Nat) (level : SecurityLevel) :
    Except String Bool :=
  let sizes := KEY_SIZES level
  if publicKey.length ≠ sizes.publicKey then
    .error ("Invalid public key size: " ++ toString publicKey.length ++
      ", expected " ++ toString sizes.publicKey)
  else if sg.length ≠ sizes.signature then
    .error ("Invalid signature size: " ++ toString sg.length ++
      ", expected " ++ toString sizes.signature)
  else
    match algoVerify sg message publicKey with
    | .ok b => .ok b
    | .error _ => .ok false

/-- C8: corrupting one byte of a nominal-length signature (by `List.set`,
which keeps the length) leaves `verify` exception-free: it returns some
boolean rather than propagating an error, and whenever the underlying
capability does not accept the corrupted signature — including by throwing —
`verify` returns `false`. -/
theorem C8_verify_corruption_returns_false
    (algoVerify : List Nat → List Nat → List Nat → Except String Bool)
    (level : SecurityLevel) (publicKey message sg : List Nat) (i v : Nat)
    (hpk : publicKey.length = (KEY_SIZES level).publicKey)
    (hsg : sg.length = (KEY_SIZES level).signature) :
    (sg.set i v).length = (KEY_SIZES level).signature ∧
    (∃ b, verify algoVerify publicKey message (sg.set i v) level = Except.ok b) ∧
    (algoVerify (sg.set i v) message publicKey ≠ Except.ok true →
      verify algoVerify publicKey message (sg.set i v) level = Except.ok false) := by
  have hlen : (sg.set i v).length = (KEY_SIZES level).signature := by
    rw [List.length_set]; exact hsg
  refine ⟨hlen, ?_, ?_⟩
  · unfold verify
    simp only [hpk, hlen, ne_eq, not_true_eq_false, if_false, ite_false, if_neg,
      not_false_iff]
    cases h : algoVerify (sg.set i v) message publicKey with
    | ok b => exact ⟨b, by simp [h]⟩
    | error e => exact ⟨false, by simp [h]⟩
  · intro hrej
    unfold verify
    simp only [hpk, hlen, ne_eq, not_true_eq_false, if_false, ite_false, if_neg,
      not_false_iff]
    cases h : algoVerify (sg.set i v) message publicKey with
    | ok b =>
      cases b with
      | true => exact absurd h hrej
      | false => simp [h]
    | error e => simp [h]

/-- C8 witness: a one-byte corruption of an all-zero nominal-length ml_dsa44
signature under a capability that throws on everything. -/
theorem C8_verify_corruption_returns_false_witness :
    ((List.replicate 2420 0).set 0 1).length =
      (KEY_SIZES SecurityLevel.ml_dsa44).signature ∧
    (∃ b, verify (fun _ _ _ => Except.error "boom") (List.replicate 1312 0) []
        ((List.replicate 2420 0).set 0 1) SecurityLevel.ml_dsa44 = Except.ok b) ∧
    ((fun (_ _ _ : List Nat) => (Except.error "boom" : Except String Bool))
        ((List.replicate 2420 0).set 0 1) [] (List.replicate 1312 0) ≠
          Except.ok true →
      verify (fun _ _ _ => Except.error "boom") (List.replicate 1312 0) []
        ((List.replicate 2420 0).set 0 1) SecurityLevel.ml_dsa44 =
          Except.ok false) :=
  C8_verify_corruption_returns_false (fun _ _ _ => Except.error "boom")
    SecurityLevel.ml_dsa44 (List.replicate 1312 0) [] (List.replicate 2420 0)
    0 1 (by rw [List.length_replicate]; rfl) (by rw [List.length_replicate]; rfl)

/-- The `TxStatus` union of App.tsx. -/
inductive TxStatus
  | idle
  | building
  | signing
  | submitting
  | waiting
  | confirmed
  | error
deriving DecidableEq, Repr

/-- A bundler receipt as returned by `waitForReceipt` (bundler.ts). -/
structure BundlerReceipt where
  txHash : String
  gasUsed : String
deriving DecidableEq, Repr

/-- The externally observable calls `handleApprove` can make after building:
the bundler submission, the receipt poll, and the WalletConnect session
response (success with a transaction hash, or error with a message). -/
inductive ExtCall
  | submit
  | awaitReceipt
  | respondResult (txHash : String)
  | respondError (message : String)
deriving DecidableEq, Repr

/-- What one run of `handleApprove` (App.tsx) produces: the successive
`setTxStatus` values, the final `txError`, and the external calls in order. -/
structure ApproveOutcome where
  statusTrace : List TxStatus
  txError : Option String
  calls : List ExtCall
deriving DecidableEq, Repr

/-- Embeds `submitUserOp` of bundler.ts at the response level: when the
relay's JSON-RPC response carries a structured `error`, the function throws
`Bundler error: <the relay's message>`; otherwise it returns the operation
hash from `result`. -/
def submitUserOp (relayResponse : Except String String) : Except String String :=
  match relayResponse with
  | .error message => .error ("Bundler error: " ++ message)
  | .ok opHash => .ok opHash

/-- Embeds the pipeline of `handleApprove` (App.tsx), with its three
suspension points as parameters: the build-and-sign step (`buildUserOp`,
which signs internally), the relay's submit response, and the receipt poll.
The source sets `building`/`signing` around `buildUserOp`, `submitting`
before `submitUserOp`, `waiting` before `waitForReceipt`, `confirmed` or
`error` at the end; every failure is caught by the single `catch`, which
records the message in `txError` and responds to the dapp with it. -/
def handleApprove (buildResult : Except String PackedUserOp)
    (relayResponse : Except String String)
    (receiptResult : Except String BundlerReceipt) : ApproveOutcome :=
  match buildResult with
  | .error msg =>
    { statusTrace := [.building, .error]
      txError := some msg
      calls := [.respondError msg] }
  | .ok _ =>
    match submitUserOp relayResponse with
    | .error msg =>
      { statusTrace := [.building, .signing, .submitting, .error]
        txError := some msg
        calls := [.submit, .respondError msg] }
    | .ok _ =>
      match receiptResult with
      | .error msg =>
        { statusTrace := [.building, .signing, .submitting, .waiting, .error]
          txError := some msg
          calls := [.submit, .awaitReceipt, .respondError msg] }
      | .ok receipt =>
        { statusTrace := [.building, .signing, .submitting, .waiting, .confirmed]
          txError := none
          calls := [.submit, .awaitReceipt, .respondResult receipt.txHash] }

/-- C9: when the relay's submit method returns a structured error, the
lifecycle ends in the failed (`error`) state, the rejection carries the
relay's own message verbatim (as the suffix of the recorded error, after the
"Bundler error: " stage label), that same rejection is what is sent back to
the dapp, and the receipt poll (`waitForReceipt`) is never invoked. -/
theorem C9_relay_rejection_path (op : PackedUserOp) (message : String)
    (receiptResult : Except String BundlerReceipt) :
    (handleApprove (Except.ok op) (Except.error message) receiptResult).statusTrace.getLast? =
      some TxStatus.error ∧
    (handleApprove (Except.ok op) (Except.error message) receiptResult).txError =
      some ("Bundler error: " ++ message) ∧
    (∃ p, (handleApprove (Except.ok op) (Except.error message) receiptResult).txError =
      some (p ++ message)) ∧
    ExtCall.awaitReceipt ∉
      (handleApprove (Except.ok op) (Except.error message) receiptResult).calls ∧
    ExtCall.respondError ("Bundler error: " ++ message) ∈
      (handleApprove (Except.ok op) (Except.error message) receiptResult).calls := by
  refine ⟨rfl, rfl, ⟨"Bundler error: ", rfl⟩, ?_, ?_⟩
  · show ExtCall.awaitReceipt ∉
      [ExtCall.submit, ExtCall.respondError ("Bundler error: " ++ message)]
    simp
  · show ExtCall.respondError ("Bundler error: " ++ message) ∈
      [ExtCall.submit, ExtCall.respondError ("Bundler error: " ++ message)]
    simp
